import Mathlib

/-!
Verification of the single-active-session logic of `src/server.js`.

The server state is shallowly embedded: the users table (with its
`session_id` column), the `connect-sqlite3` session store, and the cached
`USER_LOOKUP` schema resolution.  Each route handler of the source becomes a
pure state-transition function; the `express` request pipeline (the
single-session middleware followed by the route handler) is composed
explicitly.  Nondeterministic environment events (a failing
`sessionStore.destroy`, a throwing `db.prepare(...).get`) are passed as
explicit boolean parameters.
-/

namespace Junio

/-- A row of the users table: the login-name column picked by
`resolveUserLookup` and the `session_id` column added at startup. -/
structure Account where
  username : String
  session_id : Option String
deriving DecidableEq, Repr

/-- The server state: the users table, the session store (token ↦ the
session's `usuario` field), and whether `USER_LOOKUP` has been resolved. -/
structure ServerState where
  accounts : List Account
  store : List (String × Option String)
  userLookup : Bool
deriving DecidableEq, Repr

/-- JavaScript `String.prototype.trim()`: strip leading and trailing
whitespace, modelled on the string's character list. -/
def jsTrim (s : String) : String :=
  ⟨((s.data.dropWhile Char.isWhitespace).reverse.dropWhile Char.isWhitespace).reverse⟩

/-- `SELECT ... FROM table WHERE column = ? LIMIT 1` — first row whose
login-name column equals the identifier. -/
def findAccount (st : ServerState) (u : String) : Option Account :=
  st.accounts.find? (fun a => a.username == u)

/-- The `usuario` field of the session the request's cookie resolves to:
`none` when no record exists (express then supplies a fresh empty session). -/
def loadSession (st : ServerState) (token : String) : Option String :=
  match st.store.find? (fun e => e.1 == token) with
  | some e => e.2
  | none => none

/-- Whether the session store holds a record for `token`. -/
def hasSession (st : ServerState) (token : String) : Bool :=
  st.store.any (fun e => e.1 == token)

/-- `sessionStore.destroy(token)` / `req.session.destroy()`: delete the
record for `token` (a no-op when it is absent). -/
def removeSession (store : List (String × Option String)) (token : String) :
    List (String × Option String) :=
  store.filter (fun e => e.1 != token)

/-- `req.session.usuario = u` persisted at end of request: the store's
`INSERT OR REPLACE` of the record for `token`, represented as
remove-then-prepend on the association list. -/
def setSessionUser (store : List (String × Option String)) (token u : String) :
    List (String × Option String) :=
  (token, some u) :: removeSession store token

/-- `UPDATE table SET session_id = ? WHERE column = ?`. -/
def bindSession (accounts : List Account) (u token : String) : List Account :=
  accounts.map (fun a => if a.username == u then { a with session_id := some token } else a)

/-- `UPDATE table SET session_id = NULL WHERE column = ?`. -/
def clearSession (accounts : List Account) (u : String) : List Account :=
  accounts.map (fun a => if a.username == u then { a with session_id := none } else a)

/-- Outcome of the single-session middleware. -/
inductive GuardOutcome
  | allow
  | redirectStale -- `req.session.destroy` then redirect `/login.html?error=sesion`
deriving DecidableEq, Repr

/-- The single-session middleware (src/server.js lines 96–110).
`sessionUsuario` is `req.session.usuario`, `sessionID` is `req.sessionID`,
`dbFails` says whether the `SELECT session_id` read throws. -/
def singleSessionGuard (st : ServerState) (sessionUsuario : Option String)
    (sessionID : String) (dbFails : Bool) : GuardOutcome × ServerState :=
  match sessionUsuario with
  | none => (.allow, st)
  | some u =>
    if st.userLookup = false then (.allow, st)
    else if dbFails then (.allow, st) -- catch: log, `next()`
    else
      match findAccount st u with
      | none => (.allow, st) -- `row` undefined ⇒ `row?.session_id` falsy
      | some row =>
        match row.session_id with
        | none => (.allow, st) -- `row?.session_id` falsy when NULL
        | some sid =>
          if sid ≠ sessionID then
            (.redirectStale, { st with store := removeSession st.store sessionID })
          else
            (.allow, st)

/-- Result of `POST /login`. -/
inductive LoginResult
  | redirectCampos -- `/login.html?error=campos`
  | redirectServer -- `/login.html?error=server`
  | redirectCredenciales -- `/login.html?error=credenciales`
  | redirectHome -- `/`
deriving DecidableEq, Repr

/-- The common tail of both login branches: attach the identity to the
caller's session and bind the caller's token to the account. -/
def bindOwn (st : ServerState) (username sessionID : String) : ServerState :=
  { st with
    accounts := bindSession st.accounts username sessionID
    store := setSessionUser st.store sessionID username }

/-- `POST /login` (src/server.js lines 119–164).  `resolveOk` says whether a
re-run of `resolveUserLookup` would succeed, `destroyOk` whether
`sessionStore.destroy` of the superseded token succeeds, `dbFails` whether a
database call throws (caught: redirect `error=server`). -/
def login (rawUsuario sessionID : String) (resolveOk destroyOk dbFails : Bool)
    (st : ServerState) : LoginResult × ServerState :=
  if dbFails then (.redirectServer, st)
  else
    let usuario := jsTrim rawUsuario
    if usuario = "" then (.redirectCampos, st)
    else
      let lookupOk := st.userLookup || resolveOk
      let st1 : ServerState := { st with userLookup := lookupOk }
      if lookupOk = false then (.redirectServer, st1)
      else
        match findAccount st1 usuario with
        | none => (.redirectCredenciales, st1)
        | some row =>
          match row.session_id with
          | some old =>
            if old ≠ sessionID then
              -- supersession: destroy the previous session (best effort), bind
              let st2 : ServerState :=
                if destroyOk then { st1 with store := removeSession st1.store old } else st1
              (.redirectHome, bindOwn st2 row.username sessionID)
            else
              (.redirectHome, bindOwn st1 row.username sessionID)
          | none => (.redirectHome, bindOwn st1 row.username sessionID)

/-- An HTTP response, as far as the claims observe it. -/
inductive Response
  | redirect (target : String)
  | jsonActivo (activo : Bool) -- 200, `{ activo: ... }`
  | page (name : String) -- 200, an HTML file
deriving DecidableEq, Repr

/-- `GET /logout` (src/server.js lines 167–177): clear the account mark when
the session is authenticated (a thrown UPDATE is caught and logged), then
destroy the caller's session.  Always redirects to `/login.html`. -/
def logout (st : ServerState) (sessionID : String) (dbFails : Bool) :
    Response × ServerState :=
  let st1 : ServerState :=
    match loadSession st sessionID with
    | some u =>
      if st.userLookup && !dbFails then { st with accounts := clearSession st.accounts u }
      else st
    | none => st
  (.redirect "/login.html", { st1 with store := removeSession st1.store sessionID })

/-- Full pipeline for `GET /verificar-sesion`: the single-session middleware,
then `res.json({ activo: !!req.session.usuario })`. -/
def handleVerificar (st : ServerState) (sessionID : String) (dbFails : Bool) :
    Response × ServerState :=
  let su := loadSession st sessionID
  match singleSessionGuard st su sessionID dbFails with
  | (.redirectStale, st') => (.redirect "/login.html?error=sesion", st')
  | (.allow, st') => (.jsonActivo su.isSome, st')

/-- Full pipeline for the protected page `GET /`: the single-session
middleware, then the route's own login check. -/
def handleHome (st : ServerState) (sessionID : String) (dbFails : Bool) :
    Response × ServerState :=
  let su := loadSession st sessionID
  match singleSessionGuard st su sessionID dbFails with
  | (.redirectStale, st') => (.redirect "/login.html?error=sesion", st')
  | (.allow, st') =>
    match su with
    | none => (.redirect "/login.html", st')
    | some _ => (.page "inicio.html", st')

/-- Full pipeline for `GET /logout`: the single-session middleware, then the
logout handler. -/
def handleLogout (st : ServerState) (sessionID : String) (dbFails : Bool) :
    Response × ServerState :=
  let su := loadSession st sessionID
  match singleSessionGuard st su sessionID dbFails with
  | (.redirectStale, st') => (.redirect "/login.html?error=sesion", st')
  | (.allow, st') => logout st' sessionID dbFails

/-- The `session_id` currently bound to identifier `u`, if the account exists. -/
def boundToken (st : ServerState) (u : String) : Option String :=
  (findAccount st u).bind Account.session_id

/-! ### Helper lemmas about the store and the accounts table -/

@[simp] lemma findAccount_setUserLookup (st : ServerState) (b : Bool) (u : String) :
    findAccount { st with userLookup := b } u = findAccount st u := rfl

lemma findAccount_updateWhere (l : List Account) (u : String) (f : Account → Account)
    (hf : ∀ a, (f a).username = a.username) :
    (l.map fun a => if (a.username == u) = true then f a else a).find?
        (fun a => a.username == u) =
      (l.find? (fun a => a.username == u)).map f := by
  induction l with
  | nil => rfl
  | cons a l ih =>
    simp only [List.map_cons]
    by_cases h : (a.username == u) = true
    · rw [if_pos h]
      have hpa : ((f a).username == u) = true := by rw [hf a]; exact h
      simp only [List.find?_cons, hpa, h, Option.map_some']
    · rw [if_neg h]
      have h' : (a.username == u) = false := by simpa using h
      simp only [List.find?_cons, h']
      exact ih

lemma findAccount_bindSession (st : ServerState) (accounts : List Account)
    (u tok : String)
    (h : accounts = bindSession st.accounts u tok) (store : List (String × Option String))
    (b : Bool) :
    findAccount ⟨accounts, store, b⟩ u =
      (findAccount st u).map (fun a => { a with session_id := some tok }) := by
  subst h
  exact findAccount_updateWhere st.accounts u _ (fun a => rfl)

lemma findAccount_clearSession (st : ServerState) (accounts : List Account)
    (u : String)
    (h : accounts = clearSession st.accounts u) (store : List (String × Option String))
    (b : Bool) :
    findAccount ⟨accounts, store, b⟩ u =
      (findAccount st u).map (fun a => { a with session_id := none }) := by
  subst h
  exact findAccount_updateWhere st.accounts u _ (fun a => rfl)

lemma removeSession_self_find? (store : List (String × Option String)) (t : String) :
    (removeSession store t).find? (fun e => e.1 == t) = none := by
  rw [List.find?_eq_none]
  intro e he
  simp only [removeSession, List.mem_filter, bne_iff_ne, ne_eq] at he
  simp [he.2]

lemma removeSession_idem (store : List (String × Option String)) (t : String) :
    removeSession (removeSession store t) t = removeSession store t := by
  simp [removeSession, List.filter_filter]

lemma hasSession_removeSession_self (st store : List (String × Option String))
    (t : String) (h : store = removeSession st t) :
    store.any (fun e => e.1 == t) = false := by
  subst h
  rw [List.any_eq_false]
  intro e he
  simp only [removeSession, List.mem_filter, bne_iff_ne, ne_eq] at he
  simp [he.2]

lemma removeSession_self_any (store : List (String × Option String)) (t : String) :
    (removeSession store t).any (fun e => e.1 == t) = false :=
  hasSession_removeSession_self store _ t rfl

lemma removeSession_key_false (store : List (String × Option String)) (t s : String)
    (h : store.any (fun e => e.1 == t) = false) :
    (removeSession store s).any (fun e => e.1 == t) = false := by
  rw [List.any_eq_false] at h ⊢
  intro e he
  exact h e (List.mem_of_mem_filter he)

lemma removeSession_key_find?_none (store : List (String × Option String)) (t s : String)
    (h : store.find? (fun e => e.1 == t) = none) :
    (removeSession store s).find? (fun e => e.1 == t) = none := by
  rw [List.find?_eq_none] at h ⊢
  intro e he
  exact h e (List.mem_of_mem_filter he)

lemma findAccount_username {st : ServerState} {u : String} {row : Account}
    (h : findAccount st u = some row) : row.username = u := by
  have h2 := List.find?_some h
  simpa using h2

lemma boundToken_bindOwn (st : ServerState) (u tok : String) (row : Account)
    (h : findAccount st u = some row) :
    boundToken (bindOwn st u tok) u = some tok := by
  have hb : findAccount (bindOwn st u tok) u =
      (findAccount st u).map (fun a => { a with session_id := some tok }) :=
    findAccount_updateWhere st.accounts u _ (fun a => rfl)
  rw [boundToken, hb, h, Option.map_some']
  rfl

lemma loadSession_setSessionUser (accounts : List Account)
    (store : List (String × Option String)) (b : Bool) (tok u : String) :
    loadSession ⟨accounts, setSessionUser store tok u, b⟩ tok = some u := by
  simp [loadSession, setSessionUser]

lemma hasSession_setSessionUser_mono (store : List (String × Option String))
    (tok u t : String) (h : store.any (fun e => e.1 == t) = true) :
    (setSessionUser store tok u).any (fun e => e.1 == t) = true := by
  by_cases ht : tok = t
  · simp [setSessionUser, ht]
  · rw [List.any_eq_true] at h ⊢
    obtain ⟨e, he, hpe⟩ := h
    refine ⟨e, ?_, hpe⟩
    simp only [setSessionUser, List.mem_cons, removeSession, List.mem_filter]
    right
    refine ⟨he, ?_⟩
    have het : e.1 = t := by simpa using hpe
    simp [het, ht, bne]
    exact fun hh => ht hh.symm

lemma bindSession_idem (l : List Account) (u tok : String) :
    bindSession (bindSession l u tok) u tok = bindSession l u tok := by
  unfold bindSession
  rw [List.map_map]
  apply List.map_congr_left
  intro a _
  by_cases h : a.username = u
  · simp [Function.comp, h]
  · simp [Function.comp, h]

lemma setSessionUser_idem (store : List (String × Option String)) (tok u : String) :
    setSessionUser (setSessionUser store tok u) tok u = setSessionUser store tok u := by
  show (tok, some u) :: removeSession ((tok, some u) :: removeSession store tok) tok =
    (tok, some u) :: removeSession store tok
  have h1 : removeSession ((tok, some u) :: removeSession store tok) tok =
      removeSession (removeSession store tok) tok := by
    show List.filter _ (_ :: _) = _
    rw [List.filter_cons]
    simp only [bne_self_eq_false, Bool.false_eq_true, if_false]
    rfl
  rw [h1, removeSession_idem]

/-! ### Evaluation lemmas for the login handler's branches -/

lemma login_eval_notfound (raw sessionID : String) (resolveOk destroyOk : Bool)
    (st : ServerState) (hl : (st.userLookup || resolveOk) = true) (hne : jsTrim raw ≠ "")
    (hrow : findAccount st (jsTrim raw) = none) :
    login raw sessionID resolveOk destroyOk false st =
      (.redirectCredenciales, { st with userLookup := true }) := by
  simp [login, hne, hl, hrow]

lemma login_eval_rebind (raw sessionID : String) (resolveOk destroyOk : Bool)
    (st : ServerState) (row : Account)
    (hl : (st.userLookup || resolveOk) = true) (hne : jsTrim raw ≠ "")
    (hrow : findAccount st (jsTrim raw) = some row)
    (hsame : row.session_id = none ∨ row.session_id = some sessionID) :
    login raw sessionID resolveOk destroyOk false st =
      (.redirectHome, bindOwn { st with userLookup := true } row.username sessionID) := by
  rcases hsame with h | h <;> simp [login, hne, hl, hrow, h]

lemma login_eval_super (raw sessionID : String) (resolveOk destroyOk : Bool)
    (st : ServerState) (row : Account) (old : String)
    (hl : (st.userLookup || resolveOk) = true) (hne : jsTrim raw ≠ "")
    (hrow : findAccount st (jsTrim raw) = some row)
    (hold : row.session_id = some old) (hdiff : old ≠ sessionID) :
    login raw sessionID resolveOk destroyOk false st =
      (.redirectHome,
        bindOwn
          (if destroyOk then
            { st with userLookup := true, store := removeSession st.store old }
          else { st with userLookup := true })
          row.username sessionID) := by
  simp [login, hne, hl, hrow, hold, hdiff]

/-! ### C9, C10, C3, C1 -/

/-- C9: a login whose identifier trims to the empty string is rejected with
the `error=campos` redirect and the server state is left untouched — no
account lookup result is consulted and nothing is created or mutated. -/
theorem login_blank_identifier_rejected (raw sessionID : String)
    (resolveOk destroyOk : Bool) (st : ServerState) (h : jsTrim raw = "") :
    login raw sessionID resolveOk destroyOk false st = (.redirectCampos, st) := by
  simp [login, h]

/-- Witness for C9 at the whitespace-only identifier `"   "`. -/
theorem login_blank_identifier_rejected_witness :
    jsTrim "   " = "" ∧
      login "   " "T1" true true false ⟨[⟨"alice", none⟩], [], true⟩ =
        (.redirectCampos, ⟨[⟨"alice", none⟩], [], true⟩) :=
  ⟨by decide,
    login_blank_identifier_rejected "   " "T1" true true
      ⟨[⟨"alice", none⟩], [], true⟩ (by decide)⟩

/-- C10: when the request's session carries an identity but the schema lookup
is unconfigured, or the users table has no row for that identity, the
single-session middleware calls `next()` and the state is unchanged. -/
theorem guard_missing_account_allows (st : ServerState) (u sessionID : String)
    (dbFails : Bool) (h : st.userLookup = false ∨ findAccount st u = none) :
    singleSessionGuard st (some u) sessionID dbFails = (.allow, st) := by
  rcases h with h | h
  · simp [singleSessionGuard, h]
  · by_cases hl : st.userLookup = false
    · simp [singleSessionGuard, hl]
    · by_cases hdb : dbFails <;> simp [singleSessionGuard, hl, hdb, h]

/-- Witness for C10: a configured lookup but an empty users table. -/
theorem guard_missing_account_allows_witness :
    ((ServerState.mk [] [] true).userLookup = false ∨
        findAccount ⟨[], [], true⟩ "alice" = none) ∧
      singleSessionGuard ⟨[], [], true⟩ (some "alice") "T1" false =
        (.allow, ⟨[], [], true⟩) :=
  ⟨Or.inr rfl, guard_missing_account_allows ⟨[], [], true⟩ "alice" "T1" false (Or.inr rfl)⟩

/-- Counterexample to C3: with a session identity present and the account row
genuinely stale (bound token `"T2"`, request token `"T1"`), a throwing
`SELECT` makes the middleware hit its `catch`, which calls `next()` — the
request is allowed through with the state unchanged, the opposite of
failing closed. -/
theorem guard_read_failure_allows_counterexample :
    boundToken ⟨[⟨"alice", some "T2"⟩], [("T1", some "alice")], true⟩ "alice" = some "T2" ∧
      singleSessionGuard ⟨[⟨"alice", some "T2"⟩], [("T1", some "alice")], true⟩
          (some "alice") "T1" true =
        (.allow, ⟨[⟨"alice", some "T2"⟩], [("T1", some "alice")], true⟩) := by
  exact ⟨rfl, rfl⟩

/-- C3 (amended): when the bound-token read raises, the middleware fails
open — it logs, calls `next()` and leaves the state unchanged, for every
state and every session identity. -/
theorem guard_read_failure_fails_open (st : ServerState) (su : Option String)
    (sessionID : String) :
    singleSessionGuard st su sessionID true = (.allow, st) := by
  cases su with
  | none => rfl
  | some u => by_cases hl : st.userLookup = false <;> simp [singleSessionGuard, hl]

/-- Counterexample to C1: (a) with the account's `session_id` NULL, the
middleware allows the request through instead of treating the session as
stale; (b) a stale session hitting the status route `/verificar-sesion` gets
the login-page redirect, not an unauthorized status. -/
theorem guard_null_bound_counterexample :
    (boundToken ⟨[⟨"alice", none⟩], [("T1", some "alice")], true⟩ "alice" = none ∧
      singleSessionGuard ⟨[⟨"alice", none⟩], [("T1", some "alice")], true⟩
          (some "alice") "T1" false =
        (.allow, ⟨[⟨"alice", none⟩], [("T1", some "alice")], true⟩)) ∧
      handleVerificar ⟨[⟨"alice", some "T2"⟩], [("T1", some "alice")], true⟩ "T1" false =
        (.redirect "/login.html?error=sesion", ⟨[⟨"alice", some "T2"⟩], [], true⟩) := by
  exact ⟨⟨rfl, rfl⟩, rfl⟩

/-- C1 (amended): the middleware terminates the session (removing its
server-side record) and redirects to the login page exactly when the
account's bound token is non-null and differs from the request's token —
the same redirect for every route class; a null or matching bound token
allows the request through unchanged. -/
theorem guard_stale_iff_nonnull_mismatch (st : ServerState) (u sessionID : String)
    (row : Account) (hl : st.userLookup = true) (hrow : findAccount st u = some row) :
    (∀ old, row.session_id = some old → old ≠ sessionID →
        singleSessionGuard st (some u) sessionID false =
          (.redirectStale, { st with store := removeSession st.store sessionID })) ∧
      ((row.session_id = none ∨ row.session_id = some sessionID) →
        singleSessionGuard st (some u) sessionID false = (.allow, st)) := by
  constructor
  · intro old hold hne
    simp [singleSessionGuard, hl, hrow, hold, hne]
  · rintro (h | h) <;> simp [singleSessionGuard, hl, hrow, h]

/-- Witness for C1 (amended): both branches at a concrete state. -/
theorem guard_stale_iff_nonnull_mismatch_witness :
    ((ServerState.mk [⟨"alice", some "T2"⟩] [("T1", some "alice")] true).userLookup = true ∧
        findAccount ⟨[⟨"alice", some "T2"⟩], [("T1", some "alice")], true⟩ "alice" =
          some ⟨"alice", some "T2"⟩) ∧
      singleSessionGuard ⟨[⟨"alice", some "T2"⟩], [("T1", some "alice")], true⟩
          (some "alice") "T1" false =
        (.redirectStale, ⟨[⟨"alice", some "T2"⟩], [], true⟩) ∧
      singleSessionGuard ⟨[⟨"alice", some "T2"⟩], [("T1", some "alice")], true⟩
          (some "alice") "T2" false =
        (.allow, ⟨[⟨"alice", some "T2"⟩], [("T1", some "alice")], true⟩) := by
  refine ⟨⟨rfl, rfl⟩, ?_, ?_⟩
  · have h := (guard_stale_iff_nonnull_mismatch
      ⟨[⟨"alice", some "T2"⟩], [("T1", some "alice")], true⟩ "alice" "T1"
      ⟨"alice", some "T2"⟩ rfl rfl).1 "T2" rfl (by decide)
    exact h
  · have h := (guard_stale_iff_nonnull_mismatch
      ⟨[⟨"alice", some "T2"⟩], [("T1", some "alice")], true⟩ "alice" "T2"
      ⟨"alice", some "T2"⟩ rfl rfl).2 (Or.inr rfl)
    exact h

/-! ### C5, C2 -/

/-- C5: a login whose (trimmed, non-empty) identifier matches no row of the
users table redirects with the `error=credenciales` indicator and mutates no
account and no session record — only the cached schema lookup may change. -/
theorem login_unknown_identifier_no_mutation (raw sessionID : String)
    (resolveOk destroyOk : Bool) (st : ServerState)
    (hl : (st.userLookup || resolveOk) = true) (hne : jsTrim raw ≠ "")
    (hrow : findAccount st (jsTrim raw) = none) :
    (login raw sessionID resolveOk destroyOk false st).1 = .redirectCredenciales ∧
      (login raw sessionID resolveOk destroyOk false st).2.accounts = st.accounts ∧
      (login raw sessionID resolveOk destroyOk false st).2.store = st.store := by
  rw [login_eval_notfound raw sessionID resolveOk destroyOk st hl hne hrow]
  exact ⟨rfl, rfl, rfl⟩

/-- Witness for C5: the identifier `"bob"` against a table holding only
`"alice"`. -/
theorem login_unknown_identifier_no_mutation_witness :
    (login "bob" "T1" true true false ⟨[⟨"alice", none⟩], [], true⟩).1 =
        .redirectCredenciales ∧
      (login "bob" "T1" true true false ⟨[⟨"alice", none⟩], [], true⟩).2.accounts =
        [⟨"alice", none⟩] ∧
      (login "bob" "T1" true true false ⟨[⟨"alice", none⟩], [], true⟩).2.store = [] :=
  login_unknown_identifier_no_mutation "bob" "T1" true true
    ⟨[⟨"alice", none⟩], [], true⟩ (by decide) (by decide) (by decide)

/-- C2: when the account's bound token is non-null and differs from the
caller's token, the login succeeds (redirects home) whether or not the
best-effort deletion of the old session succeeds, afterwards the account's
bound token is exactly the caller's new token, and when the deletion does
succeed the old token's record is gone from the session store. -/
theorem login_supersession_binds_new (raw sessionID : String)
    (resolveOk destroyOk : Bool) (st : ServerState) (row : Account) (old : String)
    (hl : (st.userLookup || resolveOk) = true) (hne : jsTrim raw ≠ "")
    (hrow : findAccount st (jsTrim raw) = some row)
    (hold : row.session_id = some old) (hdiff : old ≠ sessionID) :
    (login raw sessionID resolveOk destroyOk false st).1 = .redirectHome ∧
      boundToken (login raw sessionID resolveOk destroyOk false st).2 (jsTrim raw) =
        some sessionID ∧
      (destroyOk = true →
        hasSession (login raw sessionID resolveOk destroyOk false st).2 old = false) := by
  have hu : row.username = jsTrim raw := findAccount_username hrow
  rw [login_eval_super raw sessionID resolveOk destroyOk st row old hl hne hrow hold hdiff]
  cases destroyOk with
  | false =>
    refine ⟨rfl, ?_, fun h => absurd h (by simp)⟩
    rw [← hu]
    exact boundToken_bindOwn _ row.username sessionID row (hu ▸ hrow)
  | true =>
    refine ⟨rfl, ?_, fun _ => ?_⟩
    · rw [← hu]
      exact boundToken_bindOwn _ row.username sessionID row (hu ▸ hrow)
    · show ((sessionID, some row.username) ::
        removeSession (removeSession st.store old) sessionID).any (fun e => e.1 == old) = false
      rw [List.any_cons]
      have h1 : ((sessionID, some row.username).1 == old) = false := by
        simp only [beq_eq_false_iff_ne, ne_eq]
        exact fun hh => hdiff hh.symm
      rw [h1, Bool.false_or]
      exact removeSession_key_false _ old sessionID (removeSession_self_any st.store old)

/-- Witness for C2: `alice` bound to `T1` logs in with the fresh token `T2`
and the old session's deletion succeeds. -/
theorem login_supersession_binds_new_witness :
    (login "alice" "T2" true true false
          ⟨[⟨"alice", some "T1"⟩], [("T1", some "alice")], true⟩).1 = .redirectHome ∧
      boundToken (login "alice" "T2" true true false
          ⟨[⟨"alice", some "T1"⟩], [("T1", some "alice")], true⟩).2 (jsTrim "alice") =
        some "T2" ∧
      hasSession (login "alice" "T2" true true false
          ⟨[⟨"alice", some "T1"⟩], [("T1", some "alice")], true⟩).2 "T1" = false :=
  have h := login_supersession_binds_new "alice" "T2" true true
    ⟨[⟨"alice", some "T1"⟩], [("T1", some "alice")], true⟩ ⟨"alice", some "T1"⟩ "T1"
    (by decide) (by decide) (by decide) (by decide) (by decide)
  ⟨h.1, h.2.1, h.2.2 rfl⟩

/-! ### C6 -/

lemma findAccount_bindOwn (st : ServerState) (u tok : String) :
    findAccount (bindOwn st u tok) u =
      (findAccount st u).map (fun a => { a with session_id := some tok }) :=
  findAccount_updateWhere st.accounts u _ (fun _ => rfl)

/-- C6: re-submitting a login for the token that is already bound is not an
error: it redirects home, re-binds idempotently (running the login again from
the resulting state returns the very same state and response), leaves the
account's bound token and the session's authenticated identity in place, and
destroys no session record. -/
theorem login_rebind_same_token_idempotent (raw sessionID : String)
    (resolveOk destroyOk : Bool) (st : ServerState) (row : Account)
    (hl : (st.userLookup || resolveOk) = true) (hne : jsTrim raw ≠ "")
    (hrow : findAccount st (jsTrim raw) = some row)
    (hbound : row.session_id = some sessionID) :
    (login raw sessionID resolveOk destroyOk false st).1 = .redirectHome ∧
      login raw sessionID resolveOk destroyOk false
          (login raw sessionID resolveOk destroyOk false st).2 =
        (.redirectHome, (login raw sessionID resolveOk destroyOk false st).2) ∧
      boundToken (login raw sessionID resolveOk destroyOk false st).2 (jsTrim raw) =
        some sessionID ∧
      loadSession (login raw sessionID resolveOk destroyOk false st).2 sessionID =
        some row.username ∧
      (∀ t, hasSession st t = true →
        hasSession (login raw sessionID resolveOk destroyOk false st).2 t = true) := by
  have hu : row.username = jsTrim raw := findAccount_username hrow
  have h1 : login raw sessionID resolveOk destroyOk false st =
      (.redirectHome, bindOwn { st with userLookup := true } row.username sessionID) :=
    login_eval_rebind raw sessionID resolveOk destroyOk st row hl hne hrow (Or.inr hbound)
  rw [hu] at h1
  simp only [h1, hu]
  refine ⟨trivial, ?_, ?_, ?_, ?_⟩
  · have hrow2 : findAccount (bindOwn { st with userLookup := true } (jsTrim raw) sessionID)
        (jsTrim raw) = some { row with session_id := some sessionID } := by
      rw [findAccount_bindOwn, findAccount_setUserLookup, hrow, Option.map_some']
    have hl2 : ((bindOwn { st with userLookup := true } (jsTrim raw) sessionID).userLookup
        || resolveOk) = true := rfl
    have h2 := login_eval_rebind raw sessionID resolveOk destroyOk
      (bindOwn { st with userLookup := true } (jsTrim raw) sessionID)
      { row with session_id := some sessionID } hl2 hne hrow2 (Or.inr rfl)
    rw [h2]
    have hu2 : ({ row with session_id := some sessionID } : Account).username = jsTrim raw := hu
    rw [hu2]
    have hfinal : bindOwn
        { bindOwn { st with userLookup := true } (jsTrim raw) sessionID with userLookup := true }
        (jsTrim raw) sessionID =
        bindOwn { st with userLookup := true } (jsTrim raw) sessionID := by
      show ServerState.mk
          (bindSession (bindSession st.accounts (jsTrim raw) sessionID) (jsTrim raw) sessionID)
          (setSessionUser (setSessionUser st.store sessionID (jsTrim raw)) sessionID (jsTrim raw))
          true = _
      rw [bindSession_idem, setSessionUser_idem]
      rfl
    rw [hfinal]
  · exact boundToken_bindOwn { st with userLookup := true } (jsTrim raw) sessionID row hrow
  · exact loadSession_setSessionUser
      (bindSession st.accounts (jsTrim raw) sessionID) st.store true sessionID (jsTrim raw)
  · intro t ht
    exact hasSession_setSessionUser_mono st.store sessionID (jsTrim raw) t ht

/-- Witness for C6: `alice` already bound to `T1` logs in again with `T1`. -/
theorem login_rebind_same_token_idempotent_witness :
    (login "alice" "T1" true true false
          ⟨[⟨"alice", some "T1"⟩], [("T1", some "alice")], true⟩).1 = .redirectHome ∧
      login "alice" "T1" true true false
          (login "alice" "T1" true true false
            ⟨[⟨"alice", some "T1"⟩], [("T1", some "alice")], true⟩).2 =
        (.redirectHome, (login "alice" "T1" true true false
          ⟨[⟨"alice", some "T1"⟩], [("T1", some "alice")], true⟩).2) ∧
      boundToken (login "alice" "T1" true true false
          ⟨[⟨"alice", some "T1"⟩], [("T1", some "alice")], true⟩).2 (jsTrim "alice") =
        some "T1" ∧
      loadSession (login "alice" "T1" true true false
          ⟨[⟨"alice", some "T1"⟩], [("T1", some "alice")], true⟩).2 "T1" =
        some "alice" ∧
      hasSession (login "alice" "T1" true true false
          ⟨[⟨"alice", some "T1"⟩], [("T1", some "alice")], true⟩).2 "T1" = true :=
  have h := login_rebind_same_token_idempotent "alice" "T1" true true
    ⟨[⟨"alice", some "T1"⟩], [("T1", some "alice")], true⟩ ⟨"alice", some "T1"⟩
    (by decide) (by decide) (by decide) (by decide)
  ⟨h.1, h.2.1, h.2.2.1, h.2.2.2.1, h.2.2.2.2 "T1" (by decide)⟩

/-! ### C7 -/

/-- C7: logging out with an authenticated session clears the account's
`session_id` (whatever it held, including NULL), destroys the caller's
session record, and redirects to the login page; running logout again from
the resulting state gives the same response and the very same state (no
error); and afterwards a request to the protected page with the old token is
redirected to the login page. -/
theorem logout_clears_and_is_idempotent (st : ServerState) (sessionID u : String)
    (hl : st.userLookup = true) (hsu : loadSession st sessionID = some u) :
    (logout st sessionID false).1 = .redirect "/login.html" ∧
      boundToken (logout st sessionID false).2 u = none ∧
      hasSession (logout st sessionID false).2 sessionID = false ∧
      logout (logout st sessionID false).2 sessionID false =
        (.redirect "/login.html", (logout st sessionID false).2) ∧
      handleHome (logout st sessionID false).2 sessionID false =
        (.redirect "/login.html", (logout st sessionID false).2) := by
  have hL : logout st sessionID false =
      (.redirect "/login.html",
        ⟨clearSession st.accounts u, removeSession st.store sessionID, true⟩) := by
    simp [logout, hsu, hl]
  have hload : loadSession
      (⟨clearSession st.accounts u, removeSession st.store sessionID, true⟩ : ServerState)
      sessionID = none := by
    simp [loadSession, removeSession_self_find?]
  simp only [hL]
  refine ⟨trivial, ?_, ?_, ?_, ?_⟩
  · rw [boundToken, findAccount_clearSession st _ u rfl _ _]
    cases findAccount st u <;> simp
  · exact removeSession_self_any st.store sessionID
  · simp [logout, hload, removeSession_idem]
  · simp [handleHome, hload, singleSessionGuard]

/-- Witness for C7: `alice` authenticated under token `T1` logs out. -/
theorem logout_clears_and_is_idempotent_witness :
    (logout ⟨[⟨"alice", some "T1"⟩], [("T1", some "alice")], true⟩ "T1" false).1 =
        .redirect "/login.html" ∧
      boundToken (logout ⟨[⟨"alice", some "T1"⟩], [("T1", some "alice")], true⟩
          "T1" false).2 "alice" = none ∧
      hasSession (logout ⟨[⟨"alice", some "T1"⟩], [("T1", some "alice")], true⟩
          "T1" false).2 "T1" = false ∧
      logout (logout ⟨[⟨"alice", some "T1"⟩], [("T1", some "alice")], true⟩
            "T1" false).2 "T1" false =
        (.redirect "/login.html",
          (logout ⟨[⟨"alice", some "T1"⟩], [("T1", some "alice")], true⟩ "T1" false).2) ∧
      handleHome (logout ⟨[⟨"alice", some "T1"⟩], [("T1", some "alice")], true⟩
            "T1" false).2 "T1" false =
        (.redirect "/login.html",
          (logout ⟨[⟨"alice", some "T1"⟩], [("T1", some "alice")], true⟩ "T1" false).2) :=
  logout_clears_and_is_idempotent ⟨[⟨"alice", some "T1"⟩], [("T1", some "alice")], true⟩
    "T1" "alice" (by decide) (by decide)

/-! ### C8 -/

@[simp] lemma findAccount_ignore (st : ServerState) (store : List (String × Option String))
    (b : Bool) (u : String) :
    findAccount { st with store := store, userLookup := b } u = findAccount st u := rfl

/-- Counterexample to C8: a reachable state — `alice` logs in with `T1`,
a second login with `T2` supersedes it but the best-effort deletion of `T1`
fails, then the `T2` device logs out — leaves the zombie session `T1` in the
store while the account's bound token is NULL.  `/verificar-sesion`
presented with `T1` then answers 200 `activo = true`, even though `T1` is
not the account's currently bound session token. -/
theorem verificar_null_bound_counterexample :
    (logout (login "alice" "T2" true false false
          (login "alice" "T1" true true false
            ⟨[⟨"alice", none⟩], [], true⟩).2).2 "T2" false).2 =
        ⟨[⟨"alice", none⟩], [("T1", some "alice")], true⟩ ∧
      boundToken ⟨[⟨"alice", none⟩], [("T1", some "alice")], true⟩ "alice" = none ∧
      loadSession ⟨[⟨"alice", none⟩], [("T1", some "alice")], true⟩ "T1" = some "alice" ∧
      handleVerificar ⟨[⟨"alice", none⟩], [("T1", some "alice")], true⟩ "T1" false =
        (.jsonActivo true, ⟨[⟨"alice", none⟩], [("T1", some "alice")], true⟩) := by
  refine ⟨?_, rfl, rfl, rfl⟩
  decide

/-- C8 (amended): `/verificar-sesion` reports, with a 200 boolean, whether
the request still carries an authenticated session after the single-session
middleware has run; in particular after a supersession whose old-session
deletion succeeded, presenting the old token yields `activo = false` and
presenting the new token yields `activo = true`.  (An extant stale session
is instead redirected by the middleware, and a zombie session whose account
holds a NULL bound token reports `activo = true`.) -/
theorem verificar_after_supersession (raw T1 T2 : String)
    (resolveOk : Bool) (st : ServerState) (row : Account)
    (hl : (st.userLookup || resolveOk) = true) (hne : jsTrim raw ≠ "")
    (hrow : findAccount st (jsTrim raw) = some row)
    (hold : row.session_id = some T1) (hdiff : T1 ≠ T2) :
    handleVerificar (login raw T2 resolveOk true false st).2 T1 false =
        (.jsonActivo false, (login raw T2 resolveOk true false st).2) ∧
      handleVerificar (login raw T2 resolveOk true false st).2 T2 false =
        (.jsonActivo true, (login raw T2 resolveOk true false st).2) := by
  have hu : row.username = jsTrim raw := findAccount_username hrow
  have h1 : login raw T2 resolveOk true false st =
      (.redirectHome,
        bindOwn { st with userLookup := true, store := removeSession st.store T1 }
          row.username T2) := by
    have h := login_eval_super raw T2 resolveOk true st row T1 hl hne hrow hold hdiff
    simpa using h
  rw [hu] at h1
  simp only [h1]
  have hT2T1 : ((T2 == T1) : Bool) = false := by
    rw [beq_eq_false_iff_ne]
    exact fun h => hdiff h.symm
  have htail : (removeSession (removeSession st.store T1) T2).find?
      (fun e => e.1 == T1) = none :=
    removeSession_key_find?_none _ T1 T2 (removeSession_self_find? st.store T1)
  have hload1 : loadSession
      (bindOwn { st with userLookup := true, store := removeSession st.store T1 }
        (jsTrim raw) T2) T1 = none := by
    simp only [loadSession, bindOwn, setSessionUser, List.find?_cons, hT2T1, htail]
  have hload2 : loadSession
      (bindOwn { st with userLookup := true, store := removeSession st.store T1 }
        (jsTrim raw) T2) T2 = some (jsTrim raw) :=
    loadSession_setSessionUser (bindSession st.accounts (jsTrim raw) T2)
      (removeSession st.store T1) true T2 (jsTrim raw)
  have hfind2 : findAccount
      (bindOwn { st with userLookup := true, store := removeSession st.store T1 }
        (jsTrim raw) T2) (jsTrim raw) =
      some { row with session_id := some T2 } := by
    rw [findAccount_bindOwn, findAccount_ignore, hrow, Option.map_some']
  constructor
  · simp [handleVerificar, hload1, singleSessionGuard]
  · have hul : (bindOwn { st with userLookup := true, store := removeSession st.store T1 }
        (jsTrim raw) T2).userLookup = true := rfl
    have hguard : singleSessionGuard
        (bindOwn { st with userLookup := true, store := removeSession st.store T1 }
          (jsTrim raw) T2) (some (jsTrim raw)) T2 false =
        (.allow, bindOwn { st with userLookup := true, store := removeSession st.store T1 }
          (jsTrim raw) T2) := by
      simp [singleSessionGuard, hul, hfind2]
    simp [handleVerificar, hload2, hguard]

/-- Witness for C8 (amended): `alice` bound to `T1`, superseded by `T2`. -/
theorem verificar_after_supersession_witness :
    handleVerificar (login "alice" "T2" true true false
          ⟨[⟨"alice", some "T1"⟩], [("T1", some "alice")], true⟩).2 "T1" false =
        (.jsonActivo false, (login "alice" "T2" true true false
          ⟨[⟨"alice", some "T1"⟩], [("T1", some "alice")], true⟩).2) ∧
      handleVerificar (login "alice" "T2" true true false
          ⟨[⟨"alice", some "T1"⟩], [("T1", some "alice")], true⟩).2 "T2" false =
        (.jsonActivo true, (login "alice" "T2" true true false
          ⟨[⟨"alice", some "T1"⟩], [("T1", some "alice")], true⟩).2) :=
  verificar_after_supersession "alice" "T1" "T2" true
    ⟨[⟨"alice", some "T1"⟩], [("T1", some "alice")], true⟩ ⟨"alice", some "T1"⟩
    (by decide) (by decide) (by decide) (by decide) (by decide)

/-! ### C4: interleaving model of concurrent logins for one account

`POST /login` runs on the event loop: the handler body up to and including
the branch at line 141 is synchronous (`better-sqlite3` calls block), but in
the supersession branch the `UPDATE` runs inside the asynchronous
`sessionStore.destroy` callback.  A run of `n` simultaneous logins for the
same account is therefore an interleaving of `phase1` steps (the
synchronous body: `SELECT`, branch, and — when no differing previous token
exists — the `UPDATE`) and `phase2` steps (the destroy callback: delete the
observed old token, then `UPDATE`). -/

/-- Execution status of one concurrent login handler. -/
inductive LStatus
  | idle
  | pendingOld (old : String)
  | done
deriving DecidableEq, Repr

/-- Shared state of a run: the account's `session_id` column, the tokens so
far destroyed in the session store, and each handler's status. -/
structure RunState (n : Nat) where
  bound : Option String
  removed : List String
  status : Fin n → LStatus

/-- One event-loop step of handler `i`; `ok` is the outcome of the
best-effort `sessionStore.destroy`. -/
inductive LStep (n : Nat)
  | phase1 (i : Fin n)
  | phase2 (i : Fin n) (ok : Bool)

/-- Semantics of one step, `tok i` being handler `i`'s fresh `req.sessionID`. -/
def runStep {n : Nat} (tok : Fin n → String) (s : RunState n) : LStep n → RunState n
  | .phase1 i =>
    match s.status i with
    | .idle =>
      match s.bound with
      | some old =>
        if old ≠ tok i then
          { s with status := Function.update s.status i (.pendingOld old) }
        else
          { s with bound := some (tok i), status := Function.update s.status i .done }
      | none =>
        { s with bound := some (tok i), status := Function.update s.status i .done }
    | _ => s
  | .phase2 i ok =>
    match s.status i with
    | .pendingOld old =>
      { s with
        bound := some (tok i)
        removed := if ok then old :: s.removed else s.removed
        status := Function.update s.status i .done }
    | _ => s

/-- A whole interleaving. -/
def runSchedule {n : Nat} (tok : Fin n → String) (s : RunState n)
    (l : List (LStep n)) : RunState n :=
  l.foldl (runStep tok) s

/-- Initial state: the account bound to `b₀`, nothing destroyed, nobody run. -/
def initRun (n : Nat) (b₀ : Option String) : RunState n :=
  { bound := b₀, removed := [], status := fun _ => .idle }

/-- Run invariant: the bound token was never destroyed; every token that is
bound, destroyed, or held as a pending "old" observation is either the
initial token or the own token of a handler that already wrote; pending
observations differ from the handler's own token; and once anyone finished,
the bound token is the own token of a finished handler. -/
def RunInv {n : Nat} (tok : Fin n → String) (b₀ : Option String) (s : RunState n) : Prop :=
  (∀ x, s.bound = some x → x ∉ s.removed) ∧
    (∀ x, (s.bound = some x ∨ x ∈ s.removed ∨ ∃ i, s.status i = .pendingOld x) →
      (some x = b₀ ∨ ∃ j, s.status j = .done ∧ x = tok j)) ∧
    (∀ i x, s.status i = .pendingOld x → x ≠ tok i) ∧
    ((∃ j, s.status j = .done) → ∃ j, s.status j = .done ∧ s.bound = some (tok j))

lemma runInv_step {n : Nat} (tok : Fin n → String) (b₀ : Option String)
    (hinj : Function.Injective tok) (hb₀ : ∀ i, b₀ ≠ some (tok i))
    (s : RunState n) (hinv : RunInv tok b₀ s) (step : LStep n) :
    RunInv tok b₀ (runStep tok s step) := by
  obtain ⟨h1, h2, h3, h4⟩ := hinv
  have hfresh : ∀ i, s.status i ≠ .done → tok i ∉ s.removed := by
    intro i hi hmem
    rcases h2 (tok i) (Or.inr (Or.inl hmem)) with h | ⟨j, hj, hx⟩
    · exact hb₀ i h.symm
    · cases hinj hx; exact hi hj
  cases step with
  | phase1 i =>
    cases hsi : s.status i with
    | pendingOld old =>
      have hs' : runStep tok s (.phase1 i) = s := by simp [runStep, hsi]
      rw [hs']; exact ⟨h1, h2, h3, h4⟩
    | done =>
      have hs' : runStep tok s (.phase1 i) = s := by simp [runStep, hsi]
      rw [hs']; exact ⟨h1, h2, h3, h4⟩
    | idle =>
      have hidone : s.status i ≠ .done := by rw [hsi]; simp
      have hmono : ∀ (v : LStatus) (j : Fin n), s.status j = .done →
          Function.update s.status i v j = .done := by
        intro v j hj
        rcases eq_or_ne j i with rfl | hji
        · exact absurd hj hidone
        · rwa [Function.update_noteq hji]
      cases hb : s.bound with
      | some old =>
        by_cases heq : old = tok i
        · -- same token: synchronous rebind
          have hs' : runStep tok s (.phase1 i) =
              { s with bound := some (tok i),
                       status := Function.update s.status i .done } := by
            simp [runStep, hsi, hb, heq]
          rw [hs']
          refine ⟨?_, ?_, ?_, ?_⟩
          · intro x hx
            injection hx with hx
            subst hx
            exact hfresh i hidone
          · intro x hx
            rcases hx with hx | hx | ⟨k, hk⟩
            · injection hx with hx
              subst hx
              exact Or.inr ⟨i, by simp, rfl⟩
            · rcases h2 x (Or.inr (Or.inl hx)) with h | ⟨j, hj, hxx⟩
              · exact Or.inl h
              · exact Or.inr ⟨j, hmono _ j hj, hxx⟩
            · rcases eq_or_ne k i with rfl | hki
              · simp at hk
              · simp only [Function.update_noteq hki] at hk
                rcases h2 x (Or.inr (Or.inr ⟨k, hk⟩)) with h | ⟨j, hj, hxx⟩
                · exact Or.inl h
                · exact Or.inr ⟨j, hmono _ j hj, hxx⟩
          · intro k x hk
            rcases eq_or_ne k i with rfl | hki
            · simp at hk
            · simp only [Function.update_noteq hki] at hk
              exact h3 k x hk
          · intro _
            exact ⟨i, by simp, rfl⟩
        · -- differing token: record the observation, wait for the callback
          have hs' : runStep tok s (.phase1 i) =
              { s with status := Function.update s.status i (.pendingOld old) } := by
            simp [runStep, hsi, hb, heq]
          rw [hs']
          refine ⟨?_, ?_, ?_, ?_⟩
          · intro x hx
            exact h1 x hx
          · intro x hx
            have hx' : s.bound = some x ∨ x ∈ s.removed ∨
                ∃ k, s.status k = .pendingOld x := by
              rcases hx with hx | hx | ⟨k, hk⟩
              · exact Or.inl hx
              · exact Or.inr (Or.inl hx)
              · rcases eq_or_ne k i with rfl | hki
                · simp only [Function.update_same] at hk
                  injection hk with hk
                  subst hk
                  exact Or.inl hb
                · simp only [Function.update_noteq hki] at hk
                  exact Or.inr (Or.inr ⟨k, hk⟩)
            rcases h2 x hx' with h | ⟨j, hj, hxx⟩
            · exact Or.inl h
            · exact Or.inr ⟨j, hmono _ j hj, hxx⟩
          · intro k x hk
            rcases eq_or_ne k i with rfl | hki
            · simp only [Function.update_same] at hk
              injection hk with hk
              subst hk
              exact heq
            · simp only [Function.update_noteq hki] at hk
              exact h3 k x hk
          · rintro ⟨j, hj⟩
            have hj' : s.status j = .done := by
              rcases eq_or_ne j i with rfl | hji
              · simp at hj
              · simp only [Function.update_noteq hji] at hj
                exact hj
            obtain ⟨j', hj'd, hbj⟩ := h4 ⟨j, hj'⟩
            exact ⟨j', hmono _ j' hj'd, hbj⟩
      | none =>
        have hs' : runStep tok s (.phase1 i) =
            { s with bound := some (tok i),
                     status := Function.update s.status i .done } := by
          simp [runStep, hsi, hb]
        rw [hs']
        refine ⟨?_, ?_, ?_, ?_⟩
        · intro x hx
          injection hx with hx
          subst hx
          exact hfresh i hidone
        · intro x hx
          rcases hx with hx | hx | ⟨k, hk⟩
          · injection hx with hx
            subst hx
            exact Or.inr ⟨i, by simp, rfl⟩
          · rcases h2 x (Or.inr (Or.inl hx)) with h | ⟨j, hj, hxx⟩
            · exact Or.inl h
            · exact Or.inr ⟨j, hmono _ j hj, hxx⟩
          · rcases eq_or_ne k i with rfl | hki
            · simp at hk
            · simp only [Function.update_noteq hki] at hk
              rcases h2 x (Or.inr (Or.inr ⟨k, hk⟩)) with h | ⟨j, hj, hxx⟩
              · exact Or.inl h
              · exact Or.inr ⟨j, hmono _ j hj, hxx⟩
        · intro k x hk
          rcases eq_or_ne k i with rfl | hki
          · simp at hk
          · simp only [Function.update_noteq hki] at hk
            exact h3 k x hk
        · intro _
          exact ⟨i, by simp, rfl⟩
  | phase2 i ok =>
    cases hsi : s.status i with
    | idle =>
      have hs' : runStep tok s (.phase2 i ok) = s := by simp [runStep, hsi]
      rw [hs']; exact ⟨h1, h2, h3, h4⟩
    | done =>
      have hs' : runStep tok s (.phase2 i ok) = s := by simp [runStep, hsi]
      rw [hs']; exact ⟨h1, h2, h3, h4⟩
    | pendingOld old =>
      have hidone : s.status i ≠ .done := by rw [hsi]; simp
      have hno : old ≠ tok i := h3 i old hsi
      have hmono : ∀ (v : LStatus) (j : Fin n), s.status j = .done →
          Function.update s.status i v j = .done := by
        intro v j hj
        rcases eq_or_ne j i with rfl | hji
        · exact absurd hj hidone
        · rwa [Function.update_noteq hji]
      have hs' : runStep tok s (.phase2 i ok) =
          { s with bound := some (tok i),
                   removed := if ok then old :: s.removed else s.removed,
                   status := Function.update s.status i .done } := by
        simp [runStep, hsi]
      rw [hs']
      refine ⟨?_, ?_, ?_, ?_⟩
      · intro x hx
        injection hx with hx
        subst hx
        have hnotin : tok i ∉ s.removed := hfresh i hidone
        cases ok with
        | false => simpa using hnotin
        | true =>
          simp only [if_true, List.mem_cons]
          rintro (h | h)
          · exact hno h.symm
          · exact hnotin h
      · intro x hx
        rcases hx with hx | hx | ⟨k, hk⟩
        · injection hx with hx
          subst hx
          exact Or.inr ⟨i, by simp, rfl⟩
        · have hx' : x = old ∨ x ∈ s.removed := by
            cases ok with
            | false => exact Or.inr (by simpa using hx)
            | true => simpa using List.mem_cons.mp (by simpa using hx)
          have hsrc : s.bound = some x ∨ x ∈ s.removed ∨
              ∃ k, s.status k = .pendingOld x := by
            rcases hx' with rfl | hx'
            · exact Or.inr (Or.inr ⟨i, hsi⟩)
            · exact Or.inr (Or.inl hx')
          rcases h2 x hsrc with h | ⟨j, hj, hxx⟩
          · exact Or.inl h
          · exact Or.inr ⟨j, hmono _ j hj, hxx⟩
        · rcases eq_or_ne k i with rfl | hki
          · simp at hk
          · simp only [Function.update_noteq hki] at hk
            rcases h2 x (Or.inr (Or.inr ⟨k, hk⟩)) with h | ⟨j, hj, hxx⟩
            · exact Or.inl h
            · exact Or.inr ⟨j, hmono _ j hj, hxx⟩
      · intro k x hk
        rcases eq_or_ne k i with rfl | hki
        · simp at hk
        · simp only [Function.update_noteq hki] at hk
          exact h3 k x hk
      · intro _
        exact ⟨i, by simp, rfl⟩

lemma runInv_schedule {n : Nat} (tok : Fin n → String) (b₀ : Option String)
    (hinj : Function.Injective tok) (hb₀ : ∀ i, b₀ ≠ some (tok i))
    (l : List (LStep n)) (s : RunState n) (hinv : RunInv tok b₀ s) :
    RunInv tok b₀ (runSchedule tok s l) := by
  induction l generalizing s with
  | nil => exact hinv
  | cons a l ih => exact ih _ (runInv_step tok b₀ hinj hb₀ s hinv a)

lemma runInv_init {n : Nat} (tok : Fin n → String) (b₀ : Option String) :
    RunInv tok b₀ (initRun n b₀) := by
  refine ⟨?_, ?_, ?_, ?_⟩
  · intro x _
    simp [initRun]
  · intro x hx
    rcases hx with hx | hx | ⟨i, hi⟩
    · exact Or.inl hx.symm
    · simp [initRun] at hx
    · simp [initRun] at hi
  · intro i x hi
    simp [initRun] at hi
  · rintro ⟨j, hj⟩
    simp [initRun] at hj

/-- The two fresh tokens of a concrete two-login race. -/
def tokTwo : Fin 2 → String := fun i => if i.val = 0 then "T1" else "T2"

/-- Counterexample to C4: the login's read-modify-write sequence is not
serialized per account.  In the interleaving where both handlers run their
synchronous body before either destroy callback fires, both observe the same
old bound token `"T0"` — exactly the race the serialization requirement
forbids. -/
theorem concurrent_logins_not_serialized :
    (runSchedule tokTwo (initRun 2 (some "T0")) [.phase1 0, .phase1 1]).status 0 =
        .pendingOld "T0" ∧
      (runSchedule tokTwo (initRun 2 (some "T0")) [.phase1 0, .phase1 1]).status 1 =
        .pendingOld "T0" ∧
      tokTwo 0 ≠ tokTwo 1 ∧ "T0" ≠ tokTwo 0 ∧ "T0" ≠ tokTwo 1 := by
  decide

/-- C4 (amended): the sequence is not serialized, but every complete
interleaving of `n ≥ 1` simultaneous logins for one account — the submitted
tokens fresh and pairwise distinct — still converges: the account's single
`session_id` cell ends holding the token of one of the `n` logins, and that
token was never deleted from the session store during the run. -/
theorem concurrent_logins_converge {n : Nat} (tok : Fin n → String)
    (b₀ : Option String) (l : List (LStep n))
    (hinj : Function.Injective tok) (hb₀ : ∀ i, b₀ ≠ some (tok i)) (hn : 0 < n)
    (hdone : ∀ i, (runSchedule tok (initRun n b₀) l).status i = .done) :
    ∃ i, (runSchedule tok (initRun n b₀) l).bound = some (tok i) ∧
      tok i ∉ (runSchedule tok (initRun n b₀) l).removed := by
  have hinv := runInv_schedule tok b₀ hinj hb₀ l (initRun n b₀) (runInv_init tok b₀)
  obtain ⟨j, hj, hbj⟩ := hinv.2.2.2 ⟨⟨0, hn⟩, hdone ⟨0, hn⟩⟩
  exact ⟨j, hbj, hinv.1 (tok j) hbj⟩

/-- Witness for C4 (amended): the full racing schedule of the two-login
example — both reads first, then both destroy callbacks. -/
theorem concurrent_logins_converge_witness :
    ∃ i : Fin 2,
      (runSchedule tokTwo (initRun 2 (some "T0"))
          [.phase1 0, .phase1 1, .phase2 0 true, .phase2 1 true]).bound =
        some (tokTwo i) ∧
      tokTwo i ∉
        (runSchedule tokTwo (initRun 2 (some "T0"))
          [.phase1 0, .phase1 1, .phase2 0 true, .phase2 1 true]).removed :=
  concurrent_logins_converge tokTwo (some "T0")
    [.phase1 0, .phase1 1, .phase2 0 true, .phase2 1 true]
    (by decide : ∀ a b : Fin 2, tokTwo a = tokTwo b → a = b)
    (by decide) (by decide) (by decide)

end Junio
